import Mathlib

/-!
Verification of the talk-to-tacos repository core:
shallow embedding of `conversation_store.py` and `database.py`,
with theorems settling the specification claims.

Machine state (SQLite rows) is modelled as explicit Lean lists; the
server clock (`CURRENT_TIMESTAMP`) is modelled as a natural-number
counter incremented at every insert, so server-assigned timestamps are
strictly increasing across inserts.
-/

namespace ConvStore

/-- A row of the `conversations` table:
`(id INTEGER PRIMARY KEY AUTOINCREMENT, thread_id TEXT UNIQUE, db_path TEXT, created_at TIMESTAMP)`. -/
structure Conversation where
  id : Nat
  thread_id : String
  db_path : String
  created_at : Nat
  deriving Repr, DecidableEq

/-- A row of the `messages` table:
`(id, conversation_id, role, content, timestamp, metadata)`.
`metadata` is the JSON text stored in the column (NULL = `none`). -/
structure Message where
  id : Nat
  conversation_id : Nat
  role : String
  content : String
  timestamp : Nat
  metadata : Option String
  deriving Repr, DecidableEq

/-- The SQLite file behind `ConversationStore`: both tables in insertion
(rowid) order, the autoincrement counters, and the server clock. -/
structure Store where
  convs : List Conversation
  msgs : List Message
  nextConvId : Nat
  nextMsgId : Nat
  clock : Nat
  deriving Repr, DecidableEq

/-- The store right after `_init_db` created the two empty tables. -/
def initStore : Store :=
  { convs := [], msgs := [], nextConvId := 0, nextMsgId := 0, clock := 0 }

/-- `SELECT id FROM conversations WHERE thread_id = ?` followed by `fetchone()`:
the first conversation row with the given thread id, if any. -/
def findConv (s : Store) (tid : String) : Option Conversation :=
  s.convs.find? (fun c => c.thread_id = tid)

/-- `save_conversation(thread_id, db_path)`: `INSERT OR IGNORE` of a new
conversation row (the `UNIQUE(thread_id)` constraint makes the insert a
no-op when the thread already exists), then return the row's id. -/
def save_conversation (s : Store) (tid db_path : String) : Nat × Store :=
  match findConv s tid with
  | some c => (c.id, s)
  | none =>
      (s.nextConvId,
        { s with
          convs := s.convs ++ [⟨s.nextConvId, tid, db_path, s.clock⟩]
          nextConvId := s.nextConvId + 1
          clock := s.clock + 1 })

/-- `save_message(thread_id, role, content, metadata)`: look up the
conversation id; raise `ValueError` (modelled as `Except.error` with the
source's message) when no row exists, otherwise insert one message row. -/
def save_message (s : Store) (tid role content : String)
    (metadata : Option String) : Except String Store :=
  match findConv s tid with
  | none => .error ("No conversation found for thread_id: " ++ tid)
  | some c =>
      .ok { s with
            msgs := s.msgs ++
              [⟨s.nextMsgId, c.id, role, content, s.clock, metadata⟩]
            nextMsgId := s.nextMsgId + 1
            clock := s.clock + 1 }

/-- One element of the list returned by `get_conversation_history`:
the dict `{'role', 'content', 'timestamp', 'metadata'}`. -/
structure Turn where
  role : String
  content : String
  timestamp : Nat
  metadata : Option String
  deriving Repr, DecidableEq

/-- The `LIMIT` clause: it is appended only when the Python `limit`
argument is truthy, so `None` and `0` both mean "no limit". -/
def applyLimit (limit : Option Nat) (l : List Turn) : List Turn :=
  match limit with
  | none => l
  | some n => if n = 0 then l else l.take n

/-- `ORDER BY timestamp ASC` on the rows produced by the `WHERE
conversation_id = ?` filter. -/
def orderByTimestamp (l : List Message) : List Message :=
  l.insertionSort (fun a b => a.timestamp ≤ b.timestamp)

/-- `get_conversation_history(thread_id, limit)`: empty list when the
conversation lookup fails, otherwise the conversation's messages ordered
by timestamp, limited, and projected to turn dicts. -/
def get_conversation_history (s : Store) (tid : String)
    (limit : Option Nat) : List Turn :=
  match findConv s tid with
  | none => []
  | some c =>
      applyLimit limit
        ((orderByTimestamp
            (s.msgs.filter (fun m => m.conversation_id = c.id))).map
          (fun m => ⟨m.role, m.content, m.timestamp, m.metadata⟩))

/-- `delete_conversation(thread_id)`: `DELETE FROM conversations WHERE
thread_id = ?`.  SQLite foreign keys are not enabled, so the `messages`
rows are untouched. -/
def delete_conversation (s : Store) (tid : String) : Store :=
  { s with convs := s.convs.filter (fun c => ¬ c.thread_id = tid) }

/-- Store invariant: message timestamps are strictly increasing in rowid
order and below the clock, and conversation ids are below the
autoincrement counter.  It holds of `initStore` and is preserved by
every operation, because every insert stamps the current clock and
bumps it. -/
def WF (s : Store) : Prop :=
  s.msgs.Pairwise (fun a b => a.timestamp < b.timestamp) ∧
  (∀ m ∈ s.msgs, m.timestamp < s.clock) ∧
  (∀ c ∈ s.convs, c.id < s.nextConvId) ∧
  (∀ m ∈ s.msgs, m.conversation_id < s.nextConvId)

/-- A caller appending several turns to one thread with `save_message`,
stopping at the first error. -/
def appendAll (s : Store) (tid : String) :
    List (String × String × Option String) → Except String Store
  | [] => .ok s
  | (r, c, md) :: ts =>
      match save_message s tid r c md with
      | .error e => .error e
      | .ok s' => appendAll s' tid ts

/-- The message rows a successful `appendAll` inserts, given the
conversation id, the first fresh row id, and the starting clock. -/
def mkMsgs (cid id0 t0 : Nat) :
    List (String × String × Option String) → List Message
  | [] => []
  | (r, c, md) :: ts =>
      ⟨id0, cid, r, c, t0, md⟩ :: mkMsgs cid (id0 + 1) (t0 + 1) ts

/-- The turns `get_conversation_history` reports for those rows. -/
def expectedTurns (t0 : Nat) :
    List (String × String × Option String) → List Turn
  | [] => []
  | (r, c, md) :: ts => ⟨r, c, t0, md⟩ :: expectedTurns (t0 + 1) ts


/-- The store reached from an empty store by opening thread `t` and
appending a user turn and an assistant turn. -/
def c3state : Store :=
  { convs := [⟨0, "t", "db", 0⟩]
    msgs := [⟨0, 0, "user", "a", 1, none⟩, ⟨1, 0, "assistant", "b", 2, none⟩]
    nextConvId := 1
    nextMsgId := 2
    clock := 3 }

end ConvStore

namespace ExcelDB

/-- A spreadsheet cell as `pd.read_excel` delivers it: `none` is NaN (an
empty cell or one of pandas' default NA strings), `some s` is a value whose
`str()` is `s`. -/
abbrev Cell := Option String

/-- A sheet: its rows, in order. -/
abbrev Sheet := List (List Cell)

/-- `str(x)` on a cell: NaN prints as `nan`. -/
def pyStr : Cell → String
  | none => "nan"
  | some s => s

/-- Modelled from pandas: the default NA strings (`STR_NA_VALUES`), which
`read_excel` turns into NaN before `database.py` ever sees them.  A cell
that survives reading as `some s` therefore has `s` outside this list. -/
def is_na_string (s : String) : Bool :=
  s ∈ ["", "#N/A", "#N/A N/A", "#NA", "-1.#IND", "-1.#QNAN", "-NaN", "-nan",
       "1.#IND", "1.#QNAN", "<NA>", "N/A", "NA", "NULL", "NaN", "None",
       "n/a", "nan", "null"]

/-- Python's single-character `str.replace(pat, rep)` on a list of
characters (the replacement never re-contains a later pattern). -/
def pyReplaceChar (pat : Char) (rep : List Char) : List Char → List Char
  | [] => []
  | x :: xs => (if x = pat then rep else [x]) ++ pyReplaceChar pat rep xs

/-- The column-name cleaning chain of `create_db_from_excel` (line 98):
`str(col).replace(' ', '_').replace('(', '').replace(')', '')
.replace('.', '_').replace('-', '_').replace('/', '_').replace('\\', '_')`. -/
def sanitizeColData (l : List Char) : List Char :=
  pyReplaceChar '\\' ['_']
    (pyReplaceChar '/' ['_']
      (pyReplaceChar '-' ['_']
        (pyReplaceChar '.' ['_']
          (pyReplaceChar ')' []
            (pyReplaceChar '(' []
              (pyReplaceChar ' ' ['_'] l))))))

def sanitizeCol (s : String) : String := ⟨sanitizeColData s.data⟩

/-- Table-name sanitization (lines 102-104): keep alphanumerics and
underscore; fall back to `table_{sheet_idx}` when nothing is left. -/
def sanitizeTableName (sheet_name : String) (sheet_idx : Nat) : String :=
  let t : List Char :=
    sheet_name.data.filter (fun e => e.isAlphanum || e = '_')
  if t.isEmpty then "table_" ++ toString sheet_idx else ⟨t⟩

/-- The characters Python's regex `\s` matches. -/
def isPyWs (c : Char) : Bool :=
  c = ' ' || c = '\t' || c = '\n' || c = '\x0d' || c = '\x0b' || c = '\x0c'

/-- Greedy `\s*`: the literal after it is never a whitespace character, so
no backtracking is needed. -/
def dropWs (cs : List Char) : List Char := cs.dropWhile isPyWs

/-- Match one literal character. -/
def expectChar (c : Char) : List Char → Option (List Char)
  | x :: xs => if x = c then some xs else none
  | [] => none

/-- Match a literal string prefix. -/
def expectLit : List Char → List Char → Option (List Char)
  | [], rest => some rest
  | _ :: _, [] => none
  | l :: ls, c :: cs => if c = l then expectLit ls cs else none

/-- After an opening `"`: consume `[^"]*` and the closing `"`, returning
(content, rest).  `[^"]*` cannot cross the closing quote, so the greedy
match is the only one. -/
def scanQuoted : List Char → Option (List Char × List Char)
  | [] => none
  | c :: r =>
      if c = '"' then some ([], r)
      else (scanQuoted r).map (fun g => (c :: g.1, g.2))

/-- Match the pattern `=HYPERLINK\s*\(\s*"[^"]*"\s*,\s*"([^"]*)"\s*\)`
anchored at the start of `cs`, returning group 1 (the display label). -/
def matchHyperlinkAt (cs : List Char) : Option String :=
  (expectLit "=HYPERLINK".data cs).bind fun r1 =>
  (expectChar '(' (dropWs r1)).bind fun r2 =>
  ((dropWs r2) |> fun r => (expectChar '"' r).bind scanQuoted).bind fun url =>
  (expectChar ',' (dropWs url.2)).bind fun r4 =>
  ((dropWs r4) |> fun r => (expectChar '"' r).bind scanQuoted).bind fun lbl =>
  (expectChar ')' (dropWs lbl.2)).map fun _ => (⟨lbl.1⟩ : String)

/-- `re.search`: the leftmost position where the pattern matches. -/
def searchHyperlink : List Char → Option String
  | [] => none
  | c :: cs =>
      match matchHyperlinkAt (c :: cs) with
      | some l => some l
      | none => searchHyperlink cs

/-- Lines 41-44: replace a cell by the extracted display label when the
hyperlink pattern is found somewhere in it, else leave it as it is.
(After `astype(str)` on the first two columns every cell is a string, so
the `isinstance(x, str)` guard is always true.) -/
def unwrapHyperlink (x : String) : String :=
  match searchHyperlink x.data with
  | some lbl => lbl
  | none => x

/-- Lines 32-44 applied to one data row: the first two columns are cast to
strings and hyperlink-unwrapped, the remaining cells are untouched. -/
def procRow (row : List Cell) : List Cell :=
  row.enum.map (fun p =>
    if p.1 < 2 then some (unwrapHyperlink (pyStr p.2)) else p.2)

/-- Lines 63-64: `.replace({np.nan: None, 'NaN': None})` on a header row. -/
def cleanCell : Cell → Cell
  | some s => if s = "NaN" then none else some s
  | none => none

/-- The loop of lines 67-82: walk the (category, base-name) pairs keeping
the running `current_suffix`; a non-None category cell overwrites it, and
it is used only when truthy (non-empty). -/
def combineGo (suffix : Option String) (i : Nat) :
    List (Cell × Cell) → List String
  | [] => []
  | (top, third) :: rest =>
      let suffix' := match top with
        | some v => some v
        | none => suffix
      let base := match third with
        | some v => v
        | none => "col_" ++ toString i
      let name := match suffix' with
        | some sfx => if sfx = "" then base else base ++ "_" ++ sfx
        | none => base
      name :: combineGo suffix' (i + 1) rest

/-- Lines 63-82: the combined headers of a dual-row-combine sheet, from
its raw row 0 (categories) and row 2 (base names). -/
def combined_headers (top third : List Cell) : List String :=
  combineGo none 0 ((top.map cleanCell).zip (third.map cleanCell))

/-- Modelled from pandas: with `header=k`, a header cell's label is its
value, and an NaN header cell becomes `Unnamed: j`. -/
def headerNames (r : List Cell) : List String :=
  r.enum.map (fun p => match p.2 with
    | some s => s
    | none => "Unnamed: " ++ toString p.1)

/-- A dataframe about to be persisted: column names and data rows. -/
structure Frame where
  cols : List String
  rows : List (List Cell)
  deriving Repr, DecidableEq

/-- The per-sheet dispatch of lines 19-92, keyed on the ordinal position:
`some` is the dataframe built for the sheet, `none` means no table (an
unrecognized position hits `continue`; a too-short sheet for `header=2`
raises inside the `try` and is skipped). -/
def processSheet (idx : Nat) (sheet : Sheet) : Option Frame :=
  if idx = 0 ∨ idx = 5 then
    match sheet with
    | [] => some ⟨[], []⟩
    | hd :: rest => some ⟨headerNames hd, rest⟩
  else if idx = 2 then
    match sheet with
    | _r0 :: _r1 :: hd :: rest =>
        some ⟨headerNames hd, rest.map procRow⟩
    | _ => none
  else if idx = 8 then
    match sheet with
    | r0 :: _r1 :: r2 :: rest =>
        some ⟨combined_headers r0 r2, rest⟩
    | short =>
        some ⟨(List.range ((short.map List.length).foldr max 0)).map toString,
          short⟩
  else
    none

/-- Line 98 applied to whatever headers the strategy produced. -/
def processAndSanitize (idx : Nat) (sheet : Sheet) : Option Frame :=
  (processSheet idx sheet).map (fun f => ⟨f.cols.map sanitizeCol, f.rows⟩)

/-- The SQLite store written by ingestion: tables by name. -/
abbrev DBStore := List (String × Frame)

/-- `df.to_sql(table_name, engine, if_exists='replace')`: drop any table
of that name, then write the new one. -/
def writeTable (st : DBStore) (name : String) (f : Frame) : DBStore :=
  (st.filter (fun p => ¬ p.1 = name)) ++ [(name, f)]

/-- The `for sheet_idx, sheet_name in enumerate(xls.sheet_names)` loop. -/
def ingestSheets (st : DBStore) : Nat → List (String × Sheet) → DBStore
  | _, [] => st
  | idx, (name, sheet) :: rest =>
      match processAndSanitize idx sheet with
      | none => ingestSheets st (idx + 1) rest
      | some f =>
          ingestSheets (writeTable st (sanitizeTableName name idx) f)
            (idx + 1) rest

/-- `create_db_from_excel(excel_path, db_path)`: the existing store file
is deleted first (lines 12-13), so ingestion always starts from an empty
store, whatever was there before. -/
def create_db_from_excel (wb : List (String × Sheet)) (_existing : DBStore) :
    DBStore :=
  ingestSheets [] 0 wb

/-- The sanitized table names ingestion writes, in write order: one per
sheet whose ordinal position is recognized and whose processing succeeds. -/
def writtenNames : Nat → List (String × Sheet) → List String
  | _, [] => []
  | idx, (name, sheet) :: rest =>
      match processAndSanitize idx sheet with
      | none => writtenNames (idx + 1) rest
      | some _ => sanitizeTableName name idx :: writtenNames (idx + 1) rest

/-- The table names present in a store. -/
def dbKeys (st : DBStore) : List String := st.map Prod.fst

/-! ### The query executor (`query_db`, lines 116-131) -/

/-- Whitespace tokenizer: the words of a SQL string. -/
def tokensAux (cur : List Char) : List Char → List String
  | [] => if cur.isEmpty then [] else [⟨cur.reverse⟩]
  | c :: cs =>
      if isPyWs c then
        if cur.isEmpty then tokensAux [] cs
        else ⟨cur.reverse⟩ :: tokensAux [] cs
      else tokensAux (c :: cur) cs

/-- The whitespace-separated tokens of a SQL string. -/
def sqlTokens (q : String) : List String := tokensAux [] q.data

/-- What happens inside the `try` of `query_db` (modelled from
SQLAlchemy/sqlite3): executing a statement either yields rows (a SELECT),
yields a result with no rows (other valid statements — `fetchall` on such
a result raises `ResourceClosedError`), or raises during execution (an
empty statement, a syntax error, a missing table). -/
inductive ExecOutcome where
  | resultRows : List (List Cell) → ExecOutcome
  | noRows : ExecOutcome
  | raised : String → ExecOutcome
  deriving Repr, DecidableEq

/-- Modelled from sqlite (statements written with uppercase keywords): a
minimal statement semantics sufficient for the executor's error contract.
`SELECT * FROM t` returns the rows of `t` or raises `no such table`;
other known statement keywords execute and return no rows; anything else
raises a syntax error. -/
def sqlExec (db : DBStore) (q : String) : ExecOutcome :=
  match sqlTokens q with
  | [] => .raised "no statement"
  | w :: rest =>
      if w = "SELECT" then
        match rest with
        | ["*", "FROM", t] =>
            match db.find? (fun p => p.1 = t) with
            | some pr => .resultRows pr.2.rows
            | none => .raised ("no such table: " ++ t)
        | _ => .raised "syntax error"
      else if w ∈ ["INSERT", "UPDATE", "DELETE", "CREATE", "DROP",
          "PRAGMA", "BEGIN", "COMMIT"] then
        .noRows
      else
        .raised ("near " ++ w ++ ": syntax error")

/-- What `query_db` hands back over its boundary: a list of row tuples or
an error string — the `except` turns every raise into the latter. -/
inductive QueryResult where
  | rows : List (List Cell) → QueryResult
  | err : String → QueryResult
  deriving Repr, DecidableEq

def QueryResult.isErr : QueryResult → Bool
  | .err _ => true
  | .rows _ => false

def QueryResult.isRows : QueryResult → Bool
  | .err _ => false
  | .rows _ => true

/-- `query_db(db_path, query_string)` (lines 116-131): execute, fetch all
rows, and convert any exception — from execution or from `fetchall` on a
row-less result — into an error string. -/
def query_db (db : DBStore) (q : String) : QueryResult :=
  match sqlExec db q with
  | .resultRows rs => .rows rs
  | .noRows => .err ("Error executing query: " ++
      "This result object does not return rows. It has been closed automatically.")
  | .raised e => .err ("Error executing query: " ++ e)

/-! ### Claim-side renderings (for refinement comparisons) -/

/-- The sanitization C2 claims, in the claim's words: each of the seven
characters, parentheses included, becomes an underscore. -/
def claimSanitizeCol (s : String) : String :=
  ⟨s.data.map (fun c =>
    if c ∈ [' ', '(', ')', '.', '-', '/', '\\'] then '_' else c)⟩

/-- The single-character translation the code's replace chain amounts to:
space, dot, dash, slash and backslash become underscore, parentheses are
deleted, everything else stays. -/
def sanitizeCharSpec (c : Char) : List Char :=
  if c ∈ [' ', '.', '-', '/', '\\'] then ['_']
  else if c ∈ ['(', ')'] then [] else [c]

/-- The dual-row-combine rule in C5's words: the synthesized name is the
base name suffixed by the most recent non-empty category value at or left
of the position, or the base name alone when no category has yet
appeared. -/
def claimGo (cat : Option String) (i : Nat) : List (Cell × Cell) → List String
  | [] => []
  | (top, third) :: rest =>
      let cat' := match top with
        | some v => if v = "" then cat else some v
        | none => cat
      let base := match third with
        | some v => v
        | none => "col_" ++ toString i
      let name := match cat' with
        | some sfx => base ++ "_" ++ sfx
        | none => base
      name :: claimGo cat' (i + 1) rest

/-- C5's claimed synthesized column names for raw category and base rows. -/
def claim_headers (top third : List Cell) : List String :=
  claimGo none 0 (top.zip third)

/-- A row of cells is NA-free when every present value is outside pandas'
default NA strings — which is how every `some` cell leaves `read_excel`. -/
def naFree (r : List Cell) : Bool :=
  r.all (fun c => match c with
    | none => true
    | some v => ! is_na_string v)

/-- A two-row sheet usable at a first-row-header position. -/
def sheetA : Sheet := [[some "A"], [some "1"]]

/-- A four-row sheet usable at the `header=2` position. -/
def sheetB : Sheet := [[some "x"], [some "y"], [some "H"], [some "v"]]

/-- A workbook whose two recognized sheets (positions 0 and 2) carry
distinct sheet names that sanitize to the same table name. -/
def wbClash : List (String × Sheet) :=
  [("Data.", sheetA), ("skip me", sheetA), ("Data-", sheetB)]

end ExcelDB

namespace ConvStore

theorem initStore_WF : WF initStore := by
  refine ⟨List.Pairwise.nil, ?_, ?_, ?_⟩ <;> intro x hx <;> simp [initStore] at hx

theorem save_conversation_WF {s : Store} (h : WF s) (tid db : String) :
    WF (save_conversation s tid db).2 := by
  obtain ⟨h1, h2, h3, h4⟩ := h
  unfold save_conversation
  cases hf : findConv s tid with
  | some c => exact ⟨h1, h2, h3, h4⟩
  | none =>
      refine ⟨h1, ?_, ?_, ?_⟩
      · intro m hm
        exact Nat.lt_succ_of_lt (h2 m hm)
      · intro c hc
        simp only [List.mem_append, List.mem_singleton] at hc
        rcases hc with hc | hc
        · exact Nat.lt_succ_of_lt (h3 c hc)
        · subst hc; exact Nat.lt_succ_self _
      · intro m hm
        exact Nat.lt_succ_of_lt (h4 m hm)

theorem save_message_WF {s s' : Store} (h : WF s) {tid role content : String}
    {md : Option String} (hok : save_message s tid role content md = .ok s') :
    WF s' := by
  obtain ⟨h1, h2, h3, h4⟩ := h
  unfold save_message at hok
  cases hf : findConv s tid with
  | none => simp [hf] at hok
  | some c =>
      simp only [hf] at hok
      cases hok
      have hcid : c.id < s.nextConvId :=
        h3 c (List.mem_of_find?_eq_some hf)
      refine ⟨?_, ?_, h3, ?_⟩
      · refine List.pairwise_append.mpr ⟨h1, List.pairwise_singleton _ _, ?_⟩
        intro a ha b hb
        simp only [List.mem_singleton] at hb
        subst hb
        exact h2 a ha
      · intro m hm
        simp only [List.mem_append, List.mem_singleton] at hm
        rcases hm with hm | hm
        · exact Nat.lt_succ_of_lt (h2 m hm)
        · subst hm; exact Nat.lt_succ_self _
      · intro m hm
        simp only [List.mem_append, List.mem_singleton] at hm
        rcases hm with hm | hm
        · exact h4 m hm
        · subst hm; exact hcid

/-- When message timestamps are strictly increasing in rowid order, the
`ORDER BY timestamp` sort leaves the filtered list unchanged. -/
theorem orderByTimestamp_eq_of_pairwise {l : List Message}
    (h : l.Pairwise (fun a b => a.timestamp < b.timestamp))
    (p : Message → Bool) :
    orderByTimestamp (l.filter p) = l.filter p := by
  apply List.Sorted.insertionSort_eq
  have hp : (l.filter p).Pairwise (fun a b => a.timestamp < b.timestamp) :=
    h.filter _
  exact hp.imp (fun hab => Nat.le_of_lt hab)


theorem appendAll_ok {s : Store} {tid : String} {c : Conversation}
    (hf : findConv s tid = some c)
    (ts : List (String × String × Option String)) :
    appendAll s tid ts = .ok
      { s with
        msgs := s.msgs ++ mkMsgs c.id s.nextMsgId s.clock ts
        nextMsgId := s.nextMsgId + ts.length
        clock := s.clock + ts.length } := by
  induction ts generalizing s with
  | nil => cases s; simp [appendAll, mkMsgs]
  | cons t ts ih =>
      obtain ⟨r, cnt, md⟩ := t
      simp only [appendAll, save_message, hf]
      rw [ih (s := { s with
            msgs := s.msgs ++ [⟨s.nextMsgId, c.id, r, cnt, s.clock, md⟩]
            nextMsgId := s.nextMsgId + 1
            clock := s.clock + 1 }) hf]
      cases s
      simp [mkMsgs, List.append_assoc]
      omega

theorem appendAll_WF {tid : String}
    {ts : List (String × String × Option String)} :
    ∀ {s s' : Store}, WF s → appendAll s tid ts = .ok s' → WF s' := by
  induction ts with
  | nil =>
      intro s s' h hok
      cases hok
      exact h
  | cons t ts ih =>
      intro s s' h hok
      obtain ⟨r, c, md⟩ := t
      simp only [appendAll] at hok
      cases hsm : save_message s tid r c md with
      | error e => rw [hsm] at hok; cases hok
      | ok s1 =>
          rw [hsm] at hok
          exact ih (save_message_WF h hsm) hok

theorem filter_mkMsgs (cid : Nat) (ts : List (String × String × Option String)) :
    ∀ id0 t0, (mkMsgs cid id0 t0 ts).filter (fun m => m.conversation_id = cid) =
      mkMsgs cid id0 t0 ts := by
  induction ts with
  | nil => intro id0 t0; rfl
  | cons t ts ih =>
      intro id0 t0
      obtain ⟨r, c, md⟩ := t
      simp [mkMsgs, ih]

theorem map_turn_mkMsgs (cid : Nat) (ts : List (String × String × Option String)) :
    ∀ id0 t0, (mkMsgs cid id0 t0 ts).map
        (fun m => Turn.mk m.role m.content m.timestamp m.metadata) =
      expectedTurns t0 ts := by
  induction ts with
  | nil => intro id0 t0; rfl
  | cons t ts ih =>
      intro id0 t0
      obtain ⟨r, c, md⟩ := t
      simp [mkMsgs, expectedTurns, ih]

/-- Shared helper: a failed conversation lookup yields an empty history. -/
theorem history_eq_nil_of_findConv_none {s : Store} {tid : String}
    (h : findConv s tid = none) (limit : Option Nat) :
    get_conversation_history s tid limit = [] := by
  simp [get_conversation_history, h]


/-- Shared helper: history of a found conversation, with strictly increasing
timestamps, is the limited projection of the rowid-ordered filter. -/
theorem history_formula {s : Store} {tid : String} {c : Conversation}
    (hf : findConv s tid = some c)
    (hpair : s.msgs.Pairwise (fun a b => a.timestamp < b.timestamp))
    (limit : Option Nat) :
    get_conversation_history s tid limit =
      applyLimit limit
        ((s.msgs.filter (fun m => m.conversation_id = c.id)).map
          (fun m => Turn.mk m.role m.content m.timestamp m.metadata)) := by
  simp only [get_conversation_history, hf]
  rw [orderByTimestamp_eq_of_pairwise hpair]

/-- Shared helper: opening a fresh thread inserts one conversation row and
its lookup then finds it. -/
theorem findConv_save_conversation_fresh {s : Store} {tid : String}
    (hfresh : findConv s tid = none) (db : String) :
    save_conversation s tid db =
      (s.nextConvId,
        { s with
          convs := s.convs ++ [⟨s.nextConvId, tid, db, s.clock⟩]
          nextConvId := s.nextConvId + 1
          clock := s.clock + 1 }) ∧
    findConv (save_conversation s tid db).2 tid =
      some ⟨s.nextConvId, tid, db, s.clock⟩ := by
  constructor
  · simp [save_conversation, hfresh]
  · have hn : s.convs.find? (fun c => decide (c.thread_id = tid)) = none := hfresh
    simp only [save_conversation, findConv, hn]
    rw [List.find?_append, hn]
    simp

/-- C3 (amended): for a thread freshly opened via `save_conversation` with M
turns then appended via `save_message`, `get_conversation_history` with no
limit returns all M turns in creation order; with a positive limit N it
returns the first (oldest) N of them in creation order — the SQL is
`ORDER BY timestamp ASC LIMIT N`, so when N < M the result is the oldest N
turns, not the most recent N. -/
theorem c3_history_creation_order_limit_takes_oldest
    (s : Store) (hWF : WF s) (tid db : String)
    (hfresh : findConv s tid = none)
    (ts : List (String × String × Option String)) (s2 : Store)
    (h2 : appendAll (save_conversation s tid db).2 tid ts = .ok s2) :
    get_conversation_history s2 tid none = expectedTurns (s.clock + 1) ts ∧
    ∀ n : Nat, 0 < n →
      get_conversation_history s2 tid (some n) =
        (expectedTurns (s.clock + 1) ts).take n := by
  obtain ⟨hpc, hf1⟩ := findConv_save_conversation_fresh hfresh db
  rw [hpc] at h2 hf1
  dsimp only at h2 hf1
  have hWF1 : WF (save_conversation s tid db).2 := save_conversation_WF hWF tid db
  rw [hpc] at hWF1
  dsimp only at hWF1
  have hWF2 : WF s2 := appendAll_WF hWF1 h2
  have hA := appendAll_ok hf1 ts
  have hs2 : s2 = _ := Except.ok.inj (h2.symm.trans hA)
  have hf2 : findConv s2 tid =
      some ⟨s.nextConvId, tid, db, s.clock⟩ := by
    rw [hs2]; exact hf1
  have hmain : (s2.msgs.filter
        (fun m => m.conversation_id =
          (Conversation.mk s.nextConvId tid db s.clock).id)).map
        (fun m => Turn.mk m.role m.content m.timestamp m.metadata) =
      expectedTurns (s.clock + 1) ts := by
    rw [hs2]
    show ((s.msgs ++ mkMsgs _ _ _ ts).filter _).map _ = _
    rw [List.filter_append, filter_mkMsgs]
    have hnil : s.msgs.filter
        (fun m => decide (m.conversation_id =
          (Conversation.mk s.nextConvId tid db s.clock).id)) = [] := by
      rw [List.filter_eq_nil_iff]
      intro m hm
      have hlt : m.conversation_id < s.nextConvId := hWF.2.2.2 m hm
      simp only [decide_eq_true_eq]
      omega
    rw [hnil]
    dsimp only
    rw [List.nil_append, map_turn_mkMsgs]
  constructor
  · rw [history_formula hf2 hWF2.1 none, hmain]
    rfl
  · intro n hn
    rw [history_formula hf2 hWF2.1 (some n), hmain]
    simp only [applyLimit]
    rw [if_neg (Nat.pos_iff_ne_zero.mp hn)]

theorem c3_history_creation_order_limit_takes_oldest_witness :
    get_conversation_history c3state "t" (some 1) =
      (expectedTurns (initStore.clock + 1)
        [("user", "a", none), ("assistant", "b", none)]).take 1 :=
  (c3_history_creation_order_limit_takes_oldest initStore initStore_WF
      "t" "db" rfl [("user", "a", none), ("assistant", "b", none)]
      c3state rfl).2 1 (by decide)

/-- C3 counterexample: open a thread and append a user turn then an
assistant turn; `get_conversation_history` with limit 1 returns the
OLDEST turn (timestamp 1), not the most recent one (timestamp 2) as the
claim states. -/
theorem c3_limit_one_returns_oldest_counterexample :
    appendAll (save_conversation initStore "t" "db").2 "t"
        [("user", "a", none), ("assistant", "b", none)] = .ok c3state ∧
    get_conversation_history c3state "t" (some 1) =
      [⟨"user", "a", 1, none⟩] ∧
    get_conversation_history c3state "t" (some 1) ≠
      [⟨"assistant", "b", 2, none⟩] := by
  refine ⟨rfl, rfl, ?_⟩
  decide

/-- C9: For every thread_id for which no conversation record exists,
`get_conversation_history` returns an empty sequence and does not raise. -/
theorem c9_history_unknown_thread_empty (s : Store) (tid : String)
    (limit : Option Nat) (h : findConv s tid = none) :
    get_conversation_history s tid limit = [] :=
  history_eq_nil_of_findConv_none h limit

theorem c9_history_unknown_thread_empty_witness :
    get_conversation_history initStore "ghost" none = [] :=
  c9_history_unknown_thread_empty initStore "ghost" none rfl

/-- C8: `save_message` fails with the not-found `ValueError` exactly when no
conversation row exists for the thread id (so nothing is inserted and the
message log is unchanged), and otherwise appends exactly one message row,
leaving the conversations table as it was. -/
theorem c8_save_message_not_found_iff (s : Store) (tid role content : String)
    (md : Option String) :
    (save_message s tid role content md =
        .error ("No conversation found for thread_id: " ++ tid) ↔
      findConv s tid = none) ∧
    (∀ c, findConv s tid = some c →
      save_message s tid role content md = .ok
        { s with
          msgs := s.msgs ++ [⟨s.nextMsgId, c.id, role, content, s.clock, md⟩]
          nextMsgId := s.nextMsgId + 1
          clock := s.clock + 1 }) := by
  refine ⟨⟨?_, ?_⟩, ?_⟩
  · intro he
    cases hf : findConv s tid with
    | none => rfl
    | some c => simp [save_message, hf] at he
  · intro hf
    simp [save_message, hf]
  · intro c hf
    simp [save_message, hf]

theorem c8_save_message_not_found_iff_witness :
    save_message initStore "t" "user" "hi" none =
      .error ("No conversation found for thread_id: " ++ "t") :=
  (c8_save_message_not_found_iff initStore "t" "user" "hi" none).1.mpr rfl

/-- C10: `delete_conversation` removes only the `conversations` row for the
thread: the `messages` rows are left unchanged (orphaned), and a subsequent
`get_conversation_history` for that thread returns an empty sequence because
the conversation lookup fails. -/
theorem c10_delete_conversation_frame (s : Store) (tid : String) :
    (delete_conversation s tid).msgs = s.msgs ∧
    (delete_conversation s tid).convs =
      s.convs.filter (fun c => ¬ c.thread_id = tid) ∧
    ∀ limit, get_conversation_history (delete_conversation s tid) tid limit = [] := by
  refine ⟨rfl, rfl, fun limit => ?_⟩
  refine history_eq_nil_of_findConv_none ?_ limit
  simp only [findConv, delete_conversation, List.find?_eq_none, List.mem_filter]
  intro c hc
  simp only [decide_not, Bool.not_eq_eq_eq_not, Bool.not_true, decide_eq_false_iff_not] at hc
  simpa using hc.2


end ConvStore

namespace ExcelDB

theorem pyReplaceChar_append (pat : Char) (rep : List Char) (a b : List Char) :
    pyReplaceChar pat rep (a ++ b) =
      pyReplaceChar pat rep a ++ pyReplaceChar pat rep b := by
  induction a with
  | nil => rfl
  | cons x xs ih => simp [pyReplaceChar, ih]

theorem sanitizeColData_append (a b : List Char) :
    sanitizeColData (a ++ b) = sanitizeColData a ++ sanitizeColData b := by
  simp [sanitizeColData, pyReplaceChar_append]

theorem sanitizeColData_singleton (x : Char) :
    sanitizeColData [x] = sanitizeCharSpec x := by
  by_cases h1 : x = ' '
  · subst h1; decide
  by_cases h2 : x = '('
  · subst h2; decide
  by_cases h3 : x = ')'
  · subst h3; decide
  by_cases h4 : x = '.'
  · subst h4; decide
  by_cases h5 : x = '-'
  · subst h5; decide
  by_cases h6 : x = '/'
  · subst h6; decide
  by_cases h7 : x = '\\'
  · subst h7; decide
  simp [sanitizeColData, pyReplaceChar, sanitizeCharSpec,
    h1, h2, h3, h4, h5, h6, h7]

theorem sanitizeColData_eq_flatMap (l : List Char) :
    sanitizeColData l = l.flatMap sanitizeCharSpec := by
  induction l with
  | nil => rfl
  | cons x xs ih =>
      have h1 : sanitizeColData (x :: xs) =
          sanitizeCharSpec x ++ sanitizeColData xs := by
        conv_lhs => rw [show x :: xs = [x] ++ xs from rfl]
        rw [sanitizeColData_append, sanitizeColData_singleton]
      rw [h1, ih, List.flatMap_cons]

/-- C2 (amended): header sanitization replaces each occurrence of space,
`.`, `-`, `/` and `\` with an underscore, but removes `(` and `)` outright
rather than replacing them with underscores. -/
theorem c2_sanitize_cols (s : String) :
    sanitizeCol s = ⟨s.data.flatMap sanitizeCharSpec⟩ := by
  simp [sanitizeCol, sanitizeColData_eq_flatMap]

/-- C2 counterexample: on `a(b)` the code removes the parentheses and
yields `ab`, while the claim's replace-with-underscore rule yields
`a_b_`. -/
theorem c2_paren_counterexample :
    sanitizeCol "a(b)" = "ab" ∧
    claimSanitizeCol "a(b)" = "a_b_" ∧
    sanitizeCol "a(b)" ≠ claimSanitizeCol "a(b)" := by
  refine ⟨rfl, rfl, ?_⟩
  decide

/-- C7: re-ingesting the same workbook into the same location yields
exactly the same store as a single ingestion — the existing store file is
deleted up front, so the result does not depend on the prior store at
all, and no tables or rows accumulate. -/
theorem c7_reingest_idempotent (wb : List (String × Sheet))
    (st st' : DBStore) :
    create_db_from_excel wb (create_db_from_excel wb st) =
      create_db_from_excel wb st ∧
    create_db_from_excel wb st = create_db_from_excel wb st' :=
  ⟨rfl, rfl⟩

/-- C1: `query_db` is total — for every store and every SQL string it
returns either a list of row tuples or an error string — and in
particular an empty statement, a statement whose first word is not
SELECT, and a SELECT from a missing table all come back as error strings,
while a SELECT from an existing table comes back as its rows. -/
theorem c1_query_db_total_and_errors :
    (∀ (db : DBStore) (q : String),
      (query_db db q).isRows = true ∨ (query_db db q).isErr = true) ∧
    (∀ (db : DBStore) (q : String), sqlTokens q = [] →
      (query_db db q).isErr = true) ∧
    (∀ (db : DBStore) (q : String) (w : String) (rest : List String),
      sqlTokens q = w :: rest → w ≠ "SELECT" →
      (query_db db q).isErr = true) ∧
    (∀ (db : DBStore) (q : String) (t : String),
      sqlTokens q = ["SELECT", "*", "FROM", t] →
      db.find? (fun p => p.1 = t) = none →
      (query_db db q).isErr = true) ∧
    (∀ (db : DBStore) (q : String) (t : String) (pr : String × Frame),
      sqlTokens q = ["SELECT", "*", "FROM", t] →
      db.find? (fun p => p.1 = t) = some pr →
      query_db db q = .rows pr.2.rows) := by
  refine ⟨?_, ?_, ?_, ?_, ?_⟩
  · intro db q
    cases h : query_db db q with
    | rows rs => left; rfl
    | err e => right; rfl
  · intro db q h
    simp [query_db, sqlExec, h, QueryResult.isErr]
  · intro db q w rest h hw
    simp only [query_db, sqlExec, h]
    rw [if_neg hw]
    by_cases hin : w ∈ ["INSERT", "UPDATE", "DELETE", "CREATE", "DROP",
        "PRAGMA", "BEGIN", "COMMIT"]
    · rw [if_pos hin]; rfl
    · rw [if_neg hin]; rfl
  · intro db q t h hn
    simp [query_db, sqlExec, h, hn, QueryResult.isErr]
  · intro db q t pr h hf
    simp [query_db, sqlExec, h, hf]

theorem c1_query_db_total_and_errors_witness :
    (query_db [] "").isErr = true ∧
    (query_db [] "DROP TABLE t").isErr = true ∧
    (query_db [] "SELECT * FROM missing").isErr = true ∧
    query_db [("T", ⟨["A"], [[some "1"]]⟩)] "SELECT * FROM T" =
      .rows [[some "1"]] :=
  ⟨c1_query_db_total_and_errors.2.1 [] "" rfl,
   c1_query_db_total_and_errors.2.2.1 [] "DROP TABLE t" "DROP"
     ["TABLE", "t"] rfl (by decide),
   c1_query_db_total_and_errors.2.2.2.1 [] "SELECT * FROM missing"
     "missing" rfl rfl,
   c1_query_db_total_and_errors.2.2.2.2 [("T", ⟨["A"], [[some "1"]]⟩)]
     "SELECT * FROM T" "T" ⟨"T", ⟨["A"], [[some "1"]]⟩⟩ rfl rfl⟩

/-- C6: in a hyperlink-unwrap sheet, a first-two-column cell whose text
contains the hyperlink-formula pattern is replaced by its embedded
display label, a cell that does not match is left unchanged (as the
string its `astype(str)` cast produced), and cells beyond the first two
columns are untouched. -/
theorem c6_hyperlink_unwrap :
    (∀ (x : String) (lbl : String), searchHyperlink x.data = some lbl →
      unwrapHyperlink x = lbl) ∧
    (∀ x : String, searchHyperlink x.data = none → unwrapHyperlink x = x) ∧
    (∀ (row : List Cell) (j : Nat), j < 2 →
      (procRow row)[j]? =
        (row[j]?).map (fun c => some (unwrapHyperlink (pyStr c)))) ∧
    (∀ (row : List Cell) (j : Nat), 2 ≤ j → (procRow row)[j]? = row[j]?) ∧
    unwrapHyperlink "=HYPERLINK(\"https://x.test\",\"Label\")" = "Label" ∧
    unwrapHyperlink "plain cell" = "plain cell" := by
  refine ⟨?_, ?_, ?_, ?_, rfl, rfl⟩
  · intro x lbl h
    simp [unwrapHyperlink, h]
  · intro x h
    simp [unwrapHyperlink, h]
  · intro row j hj
    simp only [procRow, List.getElem?_map, List.getElem?_enum]
    cases hc : row[j]? <;> simp [hj]
  · intro row j hj
    have hnot : ¬ j < 2 := Nat.not_lt.mpr hj
    simp only [procRow, List.getElem?_map, List.getElem?_enum]
    cases hc : row[j]? <;> simp [hnot]

theorem c6_hyperlink_unwrap_witness :
    unwrapHyperlink "=HYPERLINK(\"u\",\"L\")" = "L" ∧
    (procRow [some "=HYPERLINK(\"u\",\"L\")", some "q", some "r"])[2]? =
      some (some "r") :=
  ⟨c6_hyperlink_unwrap.1 "=HYPERLINK(\"u\",\"L\")" "L" rfl,
   (c6_hyperlink_unwrap.2.2.2.1
      [some "=HYPERLINK(\"u\",\"L\")", some "q", some "r"] 2
      (by decide)).trans rfl⟩

theorem naFree_spec {r : List Cell} (h : naFree r = true) :
    ∀ c ∈ r, ∀ v, c = some v → is_na_string v = false := by
  intro c hc v hv
  subst hv
  simp only [naFree, List.all_eq_true] at h
  have := h _ hc
  simpa using this

theorem map_cleanCell_id {r : List Cell} (h : naFree r = true) :
    r.map cleanCell = r := by
  induction r with
  | nil => rfl
  | cons c cs ih =>
      simp only [naFree, List.all_cons, Bool.and_eq_true] at h
      have hrest : cs.map cleanCell = cs := ih h.2
      cases c with
      | none => simp [cleanCell, hrest]
      | some v =>
          have hna : is_na_string v = false := by simpa using h.1
          have hne : ¬ v = "NaN" := by
            intro he
            rw [he] at hna
            exact absurd hna (by decide)
          simp [cleanCell, hne, hrest]

theorem combineGo_eq_claimGo (pairs : List (Cell × Cell)) :
    ∀ (cat : Option String) (i : Nat),
    (∀ p ∈ pairs, ∀ v, p.1 = some v → ¬ v = "") →
    (∀ v, cat = some v → ¬ v = "") →
    combineGo cat i pairs = claimGo cat i pairs := by
  induction pairs with
  | nil => intro cat i _ _; rfl
  | cons p rest ih =>
      intro cat i hna hcat
      obtain ⟨top, third⟩ := p
      have hrest : ∀ p ∈ rest, ∀ v, p.1 = some v → ¬ v = "" :=
        fun p hp => hna p (List.mem_cons_of_mem _ hp)
      cases top with
      | none =>
          simp only [combineGo, claimGo]
          rw [ih cat (i + 1) hrest hcat]
          cases hc : cat with
          | none => rfl
          | some v =>
              have hv : ¬ v = "" := hcat v hc
              simp [hv]
      | some v =>
          have hv : ¬ v = "" :=
            hna (some v, third) (List.mem_cons_self _ _) v rfl
          simp only [combineGo, claimGo]
          rw [if_neg hv,
            ih (some v) (i + 1) hrest
              (fun u hu => by rw [Option.some_inj] at hu; exact hu ▸ hv)]
          simp [hv]

/-- C5: for NA-free category and base rows (and every `some` cell of a
sheet is NA-free after `read_excel`'s default NA filtering), the
synthesized column name at each position is the base name from row 2
suffixed by an underscore and the most recent category value at or left
of it, or the base name alone when no category has appeared; on the
claim's example rows the names are SKU, Sales_2023, Units_2023, and the
dual-row-combine strategy takes its data from row 3 on. -/
theorem c5_dual_row_combine :
    (∀ (top third : List Cell), naFree top = true → naFree third = true →
      combined_headers top third = claim_headers top third) ∧
    combined_headers [none, some "2023", none]
        [some "SKU", some "Sales", some "Units"] =
      ["SKU", "Sales_2023", "Units_2023"] ∧
    (∀ (r0 r1 r2 : List Cell) (rest : List (List Cell)),
      processSheet 8 (r0 :: r1 :: r2 :: rest) =
        some ⟨combined_headers r0 r2, rest⟩) := by
  refine ⟨?_, rfl, fun r0 r1 r2 rest => rfl⟩
  intro top third hT hH
  unfold combined_headers claim_headers
  rw [map_cleanCell_id hT, map_cleanCell_id hH]
  refine combineGo_eq_claimGo _ none 0 ?_ (fun v h => by cases h)
  intro p hp v hv
  have hmem : p.1 ∈ top := (List.of_mem_zip hp).1
  have := naFree_spec hT p.1 hmem v hv
  intro he
  rw [he] at this
  exact absurd this (by decide)

theorem c5_dual_row_combine_witness :
    combined_headers [none, some "2023", none]
        [some "SKU", some "Sales", some "Units"] =
      claim_headers [none, some "2023", none]
        [some "SKU", some "Sales", some "Units"] :=
  c5_dual_row_combine.1 [none, some "2023", none]
    [some "SKU", some "Sales", some "Units"] (by decide) (by decide)

theorem map_fst_filter_ne (st : DBStore) (n : String) :
    (st.filter (fun p => ¬ p.1 = n)).map Prod.fst =
      (st.map Prod.fst).filter (fun m => ¬ m = n) := by
  induction st with
  | nil => rfl
  | cons p rest ih =>
      simp only [decide_not] at ih
      by_cases h : p.1 = n <;> simp [h, ih]

theorem dbKeys_writeTable (st : DBStore) (n : String) (f : Frame) :
    dbKeys (writeTable st n f) =
      (dbKeys st).filter (fun m => ¬ m = n) ++ [n] := by
  have h := map_fst_filter_ne st n
  simp only [decide_not] at h
  simp [dbKeys, writeTable, h]

theorem mem_dbKeys_writeTable {m : String} (st : DBStore) (n : String)
    (f : Frame) :
    m ∈ dbKeys (writeTable st n f) ↔ m ∈ dbKeys st ∨ m = n := by
  rw [dbKeys_writeTable]
  simp only [List.mem_append, List.mem_filter, List.mem_singleton,
    decide_not, Bool.not_eq_eq_eq_not, Bool.not_true,
    decide_eq_false_iff_not]
  by_cases h : m = n <;> simp [h]

theorem nodup_dbKeys_writeTable {st : DBStore} (h : (dbKeys st).Nodup)
    (n : String) (f : Frame) : (dbKeys (writeTable st n f)).Nodup := by
  rw [dbKeys_writeTable]
  rw [List.nodup_append]
  refine ⟨h.filter _, List.nodup_singleton n, ?_⟩
  intro a ha hb
  simp only [List.mem_filter, decide_not, Bool.not_eq_eq_eq_not,
    Bool.not_true, decide_eq_false_iff_not] at ha
  simp only [List.mem_singleton] at hb
  exact ha.2 hb

theorem dbKeys_writeTable_fresh {st : DBStore} {n : String}
    (h : n ∉ dbKeys st) (f : Frame) :
    dbKeys (writeTable st n f) = dbKeys st ++ [n] := by
  rw [dbKeys_writeTable]
  congr 1
  rw [List.filter_eq_self]
  intro m hm
  simp only [decide_not, Bool.not_eq_eq_eq_not, Bool.not_true,
    decide_eq_false_iff_not]
  exact fun he => h (he ▸ hm)

theorem mem_dbKeys_ingestSheets (sheets : List (String × Sheet)) :
    ∀ (st : DBStore) (idx : Nat) (m : String),
      m ∈ dbKeys (ingestSheets st idx sheets) ↔
        m ∈ dbKeys st ∨ m ∈ writtenNames idx sheets := by
  induction sheets with
  | nil => intro st idx m; simp [ingestSheets, writtenNames]
  | cons p rest ih =>
      intro st idx m
      obtain ⟨name, sheet⟩ := p
      simp only [ingestSheets, writtenNames]
      cases hps : processAndSanitize idx sheet with
      | none => simpa using ih st (idx + 1) m
      | some f =>
          rw [ih _ (idx + 1) m, mem_dbKeys_writeTable]
          simp only [List.mem_cons]
          tauto

theorem nodup_dbKeys_ingestSheets (sheets : List (String × Sheet)) :
    ∀ (st : DBStore) (idx : Nat), (dbKeys st).Nodup →
      (dbKeys (ingestSheets st idx sheets)).Nodup := by
  induction sheets with
  | nil => intro st idx h; exact h
  | cons p rest ih =>
      intro st idx h
      obtain ⟨name, sheet⟩ := p
      simp only [ingestSheets]
      cases hps : processAndSanitize idx sheet with
      | none => exact ih st (idx + 1) h
      | some f => exact ih _ (idx + 1) (nodup_dbKeys_writeTable h _ f)

theorem dbKeys_ingestSheets_of_nodup (sheets : List (String × Sheet)) :
    ∀ (st : DBStore) (idx : Nat),
      (writtenNames idx sheets).Nodup →
      (∀ m ∈ dbKeys st, m ∉ writtenNames idx sheets) →
      dbKeys (ingestSheets st idx sheets) =
        dbKeys st ++ writtenNames idx sheets := by
  induction sheets with
  | nil => intro st idx _ _; simp [ingestSheets, writtenNames]
  | cons p rest ih =>
      intro st idx hnd hdisj
      obtain ⟨name, sheet⟩ := p
      simp only [ingestSheets, writtenNames] at hnd hdisj ⊢
      cases hps : processAndSanitize idx sheet with
      | none =>
          rw [hps] at hnd hdisj
          exact ih st (idx + 1) hnd hdisj
      | some f =>
          rw [hps] at hnd hdisj
          have hnd' := List.nodup_cons.mp hnd
          have hfresh : sanitizeTableName name idx ∉ dbKeys st := by
            intro hmem
            exact hdisj _ hmem (List.mem_cons_self _ _)
          rw [ih (writeTable st (sanitizeTableName name idx) f) (idx + 1)
              hnd'.2 ?_]
          · rw [dbKeys_writeTable_fresh hfresh, List.append_assoc,
              List.singleton_append]
          · intro m hm
            rw [dbKeys_writeTable_fresh hfresh] at hm
            rcases List.mem_append.mp hm with hm | hm
            · exact fun hc => hdisj m hm (List.mem_cons_of_mem _ hc)
            · rw [List.mem_singleton.mp hm]
              exact hnd'.1

/-- C4 (amended): ingestion writes exactly one table per sheet at a
recognized ordinal position that processes without error (sheets at other
positions are skipped and contribute nothing); because each write uses
replace-if-exists under the sanitized sheet name, the store ends with one
table per DISTINCT sanitized name — exactly K tables when the K
recognized sheets' sanitized names are distinct, fewer when two recognized
sheets sanitize to the same table name. -/
theorem c4_one_table_per_recognized_sheet (wb : List (String × Sheet)) :
    (∀ m, m ∈ dbKeys (create_db_from_excel wb []) ↔
      m ∈ writtenNames 0 wb) ∧
    (dbKeys (create_db_from_excel wb [])).Nodup ∧
    ((writtenNames 0 wb).Nodup →
      dbKeys (create_db_from_excel wb []) = writtenNames 0 wb) ∧
    (∀ (idx : Nat) (sheet : Sheet),
      ¬ (idx = 0 ∨ idx = 2 ∨ idx = 5 ∨ idx = 8) →
      processAndSanitize idx sheet = none) := by
  refine ⟨?_, ?_, ?_, ?_⟩
  · intro m
    have := mem_dbKeys_ingestSheets wb [] 0 m
    simpa [create_db_from_excel, dbKeys] using this
  · exact nodup_dbKeys_ingestSheets wb [] 0 (by simp [dbKeys])
  · intro hnd
    have := dbKeys_ingestSheets_of_nodup wb [] 0 hnd (by simp [dbKeys])
    simpa [create_db_from_excel, dbKeys] using this
  · intro idx sheet h
    have h05 : ¬ (idx = 0 ∨ idx = 5) := fun hc =>
      h (hc.elim Or.inl (fun h5 => Or.inr (Or.inr (Or.inl h5))))
    have h2 : ¬ idx = 2 := fun hc => h (Or.inr (Or.inl hc))
    have h8 : ¬ idx = 8 := fun hc => h (Or.inr (Or.inr (Or.inr hc)))
    simp [processAndSanitize, processSheet, h05, h2, h8]

theorem c4_one_table_per_recognized_sheet_witness :
    dbKeys (create_db_from_excel [("S 1", sheetA)] []) =
      writtenNames 0 [("S 1", sheetA)] :=
  (c4_one_table_per_recognized_sheet [("S 1", sheetA)]).2.2.1 (by decide)

/-- C4 counterexample: `wbClash` has exactly two sheets at recognized
positions (ordinals 0 and 2), both processing without error, but their
names `Data.` and `Data-` sanitize to the same table name `Data`, so the
replace-if-exists write leaves ONE table, not two. -/
theorem c4_name_clash_counterexample :
    (writtenNames 0 wbClash).length = 2 ∧
    (create_db_from_excel wbClash []).length = 1 ∧
    dbKeys (create_db_from_excel wbClash []) = ["Data"] :=
  ⟨rfl, rfl, rfl⟩

end ExcelDB
